import Mathlib

/-!
Shallow embedding of the AMF quiz application (source file `amf.py`) and
verification of its specification's testable properties.

The embedding models the pure core of the program: text normalisation,
yellow-fill detection, spreadsheet-row extraction, persisted-state loading,
question selection, cursor navigation and grading.  Cell values are modelled
as optional strings (the program stringifies every value through its helper
`s`), spreadsheets as lists of five-cell rows, the persisted JSON files as an
optional abstract JSON value (`none` models a missing file or content that
the JSON parser rejects), and the random shuffle as an oracle that is assumed
only to permute its input.
-/

namespace AMF

/-! ### Text helpers (source lines 39-49) -/

/-- Whitespace-trimming on character lists; the model of Python `str.strip()`. -/
def stripChars (l : List Char) : List Char :=
  ((l.dropWhile Char.isWhitespace).reverse.dropWhile Char.isWhitespace).reverse

/-- Trim a string, Python `.strip()`. -/
def strip (t : String) : String := String.mk (stripChars t.data)

/-- Source `s(val)`: the empty string for `None`, otherwise the stripped string. -/
def s (val : Option String) : String :=
  match val with
  | none => ""
  | some v => strip v

/-- Greedy match of the regex `\s*\d+\s*-\s*` at the start of `l`
(the pattern of `clean_question_text`); returns the remainder when it matches. -/
def dropNumbering (l : List Char) : Option (List Char) :=
  let l1 := l.dropWhile Char.isWhitespace
  let digits := l1.takeWhile Char.isDigit
  let l2 := l1.dropWhile Char.isDigit
  if digits.isEmpty then none
  else
    match l2.dropWhile Char.isWhitespace with
    | '-' :: rest => some (rest.dropWhile Char.isWhitespace)
    | _ => none

/-- Source `clean_question_text`: remove an optional leading `123 - ` numbering
prefix (regex `^\s*\d+\s*-\s*`) and strip the result. -/
def clean_question_text (txt : String) : String :=
  if txt = "" then ""
  else
    match dropNumbering txt.data with
    | some rest => String.mk (stripChars rest)
    | none => String.mk (stripChars txt.data)

/-- Numeric value of a digit list. -/
def digitsVal (l : List Char) : Nat :=
  l.foldl (fun a c => a * 10 + (c.toNat - ('0').toNat)) 0

/-- Python `int(str)` on an already-stripped string: optional sign then a
non-empty digit run, anything else raises (modelled as `none`). -/
def pyIntChars : List Char → Option Int
  | '-' :: rest =>
      if rest ≠ [] ∧ rest.all Char.isDigit then some (-(digitsVal rest : Int)) else none
  | '+' :: rest =>
      if rest ≠ [] ∧ rest.all Char.isDigit then some (digitsVal rest : Int) else none
  | l =>
      if l ≠ [] ∧ l.all Char.isDigit then some (digitsVal l : Int) else none

/-- Python `int` applied to a string (leading and trailing whitespace allowed). -/
def pyInt (t : String) : Option Int := pyIntChars (stripChars t.data)

/-! ### Yellow-fill detection (source lines 51-70) -/

/-- Fill foreground colour: an optional RGB string and an optional legacy
palette index, as exposed by the spreadsheet library. -/
structure FgColor where
  rgb : Option String
  indexed : Option Int
deriving DecidableEq

/-- A cell fill; `fgColor` is `none` when the attribute is `None`. -/
structure Fill where
  fgColor : Option FgColor
deriving DecidableEq

/-- A spreadsheet cell: its (stringified) value and its fill. -/
structure Cell where
  value : Option String := none
  fill : Option Fill := none
deriving DecidableEq

/-- Uppercasing on character lists, Python `str.upper()`. -/
def upperChars (l : List Char) : List Char := l.map Char.toUpper

/-- Whether `pat` occurs at the start of `hay`. -/
def patAtStart : List Char → List Char → Bool
  | [], _ => true
  | _ :: _, [] => false
  | p :: ps, h :: hs => p == h && patAtStart ps hs

/-- Python substring containment `pat in hay` on character lists. -/
def containsPat (hay pat : List Char) : Bool :=
  patAtStart pat hay ||
    match hay with
    | [] => false
    | _ :: t => containsPat t pat

/-- Python `pat in hay` on strings. -/
def strContains (hay pat : String) : Bool := containsPat hay.data pat.data

/-- The whitelist of yellow-like RGB codes scanned by `cell_is_yellow`. -/
def YELLOW_PATTERNS : List String := ["FFEB9C", "FFFF00", "FFFDEB", "FFF2CC", "FFFFFF00"]

/-- The legacy indexed-palette values accepted by `cell_is_yellow`. -/
def INDEXED_YELLOW : List Int := [5, 6, 13, 27, 44]

/-- Whether the uppercased RGB string contains one of the whitelisted codes
as a substring (the loop of source lines 61-64). -/
def rgbMatches (rv : String) : Bool :=
  YELLOW_PATTERNS.any (fun pat => strContains (String.mk (upperChars rv.data)) pat)

/-- Source `cell_is_yellow`: no fill or no foreground colour is `False`; a
truthy RGB string is scanned for the whitelisted codes as substrings; on no
hit, fall through to the legacy indexed-palette membership test. -/
def cell_is_yellow (cell : Cell) : Bool :=
  match cell.fill with
  | none => false
  | some f =>
    match f.fgColor with
    | none => false
    | some fg =>
      let rgbHit :=
        match fg.rgb with
        | none => false
        | some rv => if rv = "" then false else rgbMatches rv
      if rgbHit then true
      else
        match fg.indexed with
        | none => false
        | some i => INDEXED_YELLOW.contains i

/-! ### Spreadsheet extraction (source lines 134-192) -/

/-- One worksheet row restricted to the five columns the extractor reads:
identifier, question text, and the three option cells. -/
structure Row where
  idCell : Cell
  qCell : Cell
  aCell : Cell
  bCell : Cell
  cCell : Cell
deriving DecidableEq

/-- Lowercasing on character lists, Python `str.lower()`. -/
def lowerChars (l : List Char) : List Char := l.map Char.toLower

/-- Whether a row is the header row: its first cell is truthy and its
stripped, lowercased value starts with `n°identifiant` (source lines 147-152). -/
def isHeaderRow (r : Row) : Bool :=
  match r.idCell.value with
  | none => false
  | some v =>
      v ≠ "" && patAtStart (lowerChars ("n°identifiant").data) (lowerChars (strip v).data)

/-- Rows strictly after the first header row, `none` when no header exists. -/
def rowsAfterHeader : List Row → Option (List Row)
  | [] => none
  | r :: rs => if isHeaderRow r then some rs else rowsAfterHeader rs

/-- The data rows scanned by the extractor: everything after the first header
row, or every row when no header is found (`start_row` stays 1). -/
def dataRows (rows : List Row) : List Row :=
  match rowsAfterHeader rows with
  | some rs => rs
  | none => rows

/-- An extracted question record, one row of the resulting table. -/
structure Record where
  id : Int
  question : String
  A : String
  B : String
  C : String
  correct_idx : Option Nat
  correct_text : String
deriving DecidableEq

/-- The identifier a data row parses to: `none` when the identifier cell is
empty, blank, or not an integer (such rows are skipped). -/
def rowId (r : Row) : Option Int :=
  match r.idCell.value with
  | none => none
  | some rv => if strip rv = "" then none else pyInt (strip rv)

/-- The record a data row produces, `none` when the row is skipped
(source lines 155-187): bad identifier (the `rowId` checks), or empty
cleaned question text. -/
def rowToRecord (r : Row) : Option Record :=
  match rowId r with
  | none => none
  | some rid_int =>
        let q_text := clean_question_text (s r.qCell.value)
        let A := s r.aCell.value
        let B := s r.bCell.value
        let C := s r.cCell.value
        let correct_idx : Option Nat :=
          if cell_is_yellow r.aCell then some 0
          else if cell_is_yellow r.bCell then some 1
          else if cell_is_yellow r.cCell then some 2
          else none
        let correct_text :=
          match correct_idx with
          | some 0 => A
          | some 1 => B
          | some 2 => C
          | _ => ""
        if q_text = "" then none
        else some { id := rid_int, question := q_text, A := A, B := B, C := C,
                    correct_idx := correct_idx, correct_text := correct_text }

/-- Source `load_questions_from_excel` on an in-memory worksheet: locate the
data rows, convert each to a record (skipping malformed rows and rows with an
empty cleaned question), and keep only records with nonempty question text
(the final `df[df.question != empty]` filter, redundant with the row guard). -/
def load_questions_from_excel (rows : List Row) : List Record :=
  ((dataRows rows).filterMap rowToRecord).filter (fun rec => rec.question ≠ "")

/-! ### Grading (source lines 441-511) -/

/-- An answer letter. -/
inductive Letter where
  | A
  | B
  | C
deriving DecidableEq

/-- Source line 458: `correct_letter` from `correct_idx`; `None` unless the
index is one of 0, 1, 2. -/
def correct_letter_of : Option Nat → Option Letter
  | some 0 => some Letter.A
  | some 1 => some Letter.B
  | some 2 => some Letter.C
  | _ => none

/-- One tuple of the `details` list:
`(qid, question, user_letter, correct_letter, A, B, C)`. -/
structure Detail where
  qid : Int
  question : String
  user_letter : Option Letter
  correct_letter : Option Letter
  A : String
  B : String
  C : String
deriving DecidableEq

/-- Source line 461: a submission is correct when it is not `None` and equals
the correct letter. -/
def isCorrectAns (answers : Int → Option Letter) (row : Record) : Bool :=
  let user := answers row.id
  user.isSome && (user == correct_letter_of row.correct_idx)

/-- Accumulator of the grading loop: score, details so far, wrong-id set. -/
structure GradeState where
  score : Nat
  details : List Detail
  wrong : Finset Int

/-- The detail tuple appended for a graded row (source line 473). -/
def detailOf (answers : Int → Option Letter) (row : Record) : Detail :=
  ⟨row.id, row.question, answers row.id, correct_letter_of row.correct_idx,
   row.A, row.B, row.C⟩

/-- One iteration of the grading loop (source lines 455-473): on a correct
answer increment the score and drop the id from the wrong set; otherwise add
it; a set flag re-adds it regardless; append the detail tuple. -/
def gradeOne (answers : Int → Option Letter) (marks : Int → Bool)
    (st : GradeState) (row : Record) : GradeState :=
  let correct := isCorrectAns answers row
  let st1 :=
    if correct then
      { st with score := st.score + 1, wrong := st.wrong.erase row.id }
    else
      { st with wrong := insert row.id st.wrong }
  let st2 := if marks row.id then { st1 with wrong := insert row.id st1.wrong } else st1
  { st2 with details := st2.details ++ [detailOf answers row] }

/-- Result of a grading pass: score, details, persisted wrong and seen sets. -/
structure GradeResult where
  score : Nat
  details : List Detail
  wrong : Finset Int
  seen : Finset Int

/-- Source `grade_and_show_results`, state part (lines 449-482): grade every
row of the batch in order, persist the wrong set, then add to the seen set
every graded id whose correct letter was resolvable. -/
def grade_and_show_results (batch : List Record) (answers : Int → Option Letter)
    (marks : Int → Bool) (wrong0 seen0 : Finset Int) : GradeResult :=
  let st := batch.foldl (gradeOne answers marks) ⟨0, [], wrong0⟩
  let seen := st.details.foldl
    (fun acc d => if d.correct_letter.isSome then insert d.qid acc else acc) seen0
  ⟨st.score, st.details, st.wrong, seen⟩

/-- Sort key of the review display, source line 489: `x[2] == x[3]`, the
Python equality of the submitted letter and the correct letter (both may be
`None`, and `None == None` is `True`). -/
def sortKey (d : Detail) : Bool := d.user_letter == d.correct_letter

/-- Rank of the Boolean sort key: `False` sorts before `True`. -/
def sortRank (d : Detail) : Nat := if sortKey d then 1 else 0

/-- Source line 489: `sorted(details, key=...)`. Python `sorted` is a stable
sort by the key; modelled as insertion sort on the key rank, which inserts
each element before the first strictly-later-ranked one and therefore keeps
the original order of equal keys. -/
def details_sorted (details : List Detail) : List Detail :=
  List.insertionSort (fun d1 d2 => sortRank d1 ≤ sortRank d2) details

/-! ### Cursor state and sequential navigation (source lines 329-351, 516-535) -/

/-- Batch size of the sequential mode (source line 21). -/
def BATCH_SIZE : Nat := 20

/-- Persisted cursor state of the sequential and sprint modes:
`{"order": [...], "cursor": n}`. -/
structure CursorState where
  order : List Int
  cursor : Int
deriving DecidableEq

/-- Source `start_quiz_parcours` (lines 329-350): when the persisted order is
empty, fix it as all ids sorted ascending with cursor 0; then the current
batch is the slice `order[cursor : min(cursor+BATCH_SIZE, len(order))]`.
Returns the (possibly initialised) state and the chosen batch. -/
def start_quiz_parcours (ids : List Int) (prog : CursorState) : CursorState × List Int :=
  let st := if prog.order.isEmpty then
      ⟨List.insertionSort (fun a b => a ≤ b) ids, 0⟩
    else prog
  let e := min (st.cursor + (BATCH_SIZE : Int)) (st.order.length : Int)
  (st, (st.order.take e.toNat).drop st.cursor.toNat)

/-- A navigation action of the results screen. -/
inductive NavAction where
  | nextBatch
  | prevBatch
deriving DecidableEq

/-- The batch-navigation buttons (source lines 523-535): next advances the
cursor by `BATCH_SIZE` clipped to the order length, guarded by
`cursor < len(order)`; previous retreats by `BATCH_SIZE` clipped to 0,
guarded by `cursor > 0`. The order list is written back unchanged. -/
def navStep (st : CursorState) : NavAction → CursorState
  | NavAction.nextBatch =>
      if st.cursor < (st.order.length : Int) then
        { st with cursor := min (st.cursor + (BATCH_SIZE : Int)) (st.order.length : Int) }
      else st
  | NavAction.prevBatch =>
      if 0 < st.cursor then
        { st with cursor := max (st.cursor - (BATCH_SIZE : Int)) 0 }
      else st

/-- A sequence of navigation actions applied in order. -/
def navRun (st : CursorState) (acts : List NavAction) : CursorState :=
  acts.foldl navStep st

/-! ### Exam selection (source lines 119-130) -/

/-- Source `pick_quiz_ids`: shuffle the unseen ids and take `k`; when short,
fill up from a shuffle of the ids not yet chosen. The in-place
`random.shuffle` is modelled by a shuffle oracle, assumed in the theorems
only to permute its input. -/
def pick_quiz_ids (shuffle : List Int → List Int) (all_ids : List Int)
    (seen : Finset Int) (k : Nat) : List Int :=
  let unseen := all_ids.filter (fun i => decide (i ∉ seen))
  let chosen := (shuffle unseen).take k
  if chosen.length < k then
    let remaining := all_ids.filter (fun i => !(chosen.contains i))
    chosen ++ (shuffle remaining).take (k - chosen.length)
  else chosen

/-! ### Persisted JSON state loading (source lines 72-78, 105-117, 329-333) -/

/-- An abstract JSON value, the possible content of a persisted state file. -/
inductive JValue where
  | null
  | bool (b : Bool)
  | num (n : Int)
  | str (t : String)
  | arr (items : List JValue)
  | obj (fields : List (String × JValue))

/-- Source `load_json`: the parsed content when the file exists and parses,
else the default. `none` models a missing file as well as content on which
`json.loads` raises (both paths return the default). -/
def load_json (fileContent : Option JValue) (dflt : JValue) : JValue :=
  match fileContent with
  | some j => j
  | none => dflt

/-- The default persisted cursor state, `{"order": [], "cursor": 0}`, used by
both `load_progress` (line 107) and `load_sprint` (line 114). -/
def CURSOR_DEFAULT : JValue :=
  JValue.obj [("order", JValue.arr []), ("cursor", JValue.num 0)]

/-- Source `load_progress`: `load_json(PROGRESS_FILE, {"order": [], "cursor": 0})`. -/
def load_progress (fileContent : Option JValue) : JValue :=
  load_json fileContent CURSOR_DEFAULT

/-- First-match lookup in a JSON object's field list. -/
def jLookup : List (String × JValue) → String → Option JValue
  | [], _ => none
  | (k, v) :: rest, key => if k = key then some v else jLookup rest key

/-- Python `prog.get(key, default)`: the field (or the default) when `prog`
is a dict, an `AttributeError` otherwise. -/
def jGet (j : JValue) (key : String) (dflt : JValue) : Except String JValue :=
  match j with
  | JValue.obj fields => Except.ok ((jLookup fields key).getD dflt)
  | _ => Except.error ("AttributeError")

/-- Python `int(x)` on a JSON value: numbers pass through, booleans are 0/1,
numeric strings parse, everything else raises. -/
def jToInt : JValue → Except String Int
  | JValue.num n => Except.ok n
  | JValue.bool b => Except.ok (if b then 1 else 0)
  | JValue.str t =>
      match pyInt t with
      | some n => Except.ok n
      | none => Except.error ("ValueError")
  | _ => Except.error ("TypeError")

/-- The loaded cursor state as the caller sees it: the raw order value and
the integer cursor. -/
structure LoadedCursor where
  order : JValue
  cursor : Int

/-- The state-loading prefix of `start_quiz_parcours` (source lines 331-333,
identical in `start_quiz_sprint`, lines 356-357): read the persisted JSON,
then `order = prog.get("order", [])` and `cursor = int(prog.get("cursor", 0))`.
Exceptions raised by the caller's extraction surface as `Except.error`. -/
def load_cursor_state (fileContent : Option JValue) : Except String LoadedCursor := do
  let prog := load_progress fileContent
  let order ← jGet prog ("order") (JValue.arr [])
  let cursorJ ← jGet prog ("cursor") (JValue.num 0)
  let cursor ← jToInt cursorJ
  Except.ok ⟨order, cursor⟩

/-! ### Concrete fixtures used by the example-based theorems and witnesses -/

/-- The spec's concrete grading instance: question 1 with correct option A. -/
def recA : Record := ⟨1, "q one", "a", "b", "c", some 0, "a"⟩

/-- The spec's concrete grading instance: question 2 with correct option B. -/
def recB : Record := ⟨2, "q two", "a", "b", "c", some 1, "b"⟩

/-- Question 3 with correct option A, used for the flag-forcing instance. -/
def recFlag : Record := ⟨3, "q three", "a", "b", "c", some 0, "a"⟩

/-- Question 5 whose correct option is undetectable. -/
def recUnknown : Record := ⟨5, "q five", "a", "b", "c", none, ""⟩

/-- Submissions of the spec's concrete instance: 1 answered A, 2 answered C. -/
def answersAC : Int → Option Letter :=
  fun i => if i = 1 then some Letter.A else if i = 2 then some Letter.C else none

/-- Submission of the flag-forcing instance: 3 answered A. -/
def answersFlag : Int → Option Letter :=
  fun i => if i = 3 then some Letter.A else none

/-- No question flagged for review. -/
def marksNone : Int → Bool := fun _ => false

/-- Every question flagged for review. -/
def marksAll : Int → Bool := fun _ => true

/-- A data row with identifier 1 and a nonempty question, used twice to
exhibit duplicate extracted identifiers. -/
def rowDup : Row :=
  ⟨⟨some ("1"), none⟩, ⟨some ("Q one"), none⟩,
   ⟨some ("a"), none⟩, ⟨some ("b"), none⟩, ⟨some ("c"), none⟩⟩

/-- A review-display item answered correctly (submitted A, correct A). -/
def dMatch : Detail := ⟨1, "qc", some Letter.A, some Letter.A, "a", "b", "c"⟩

/-- A review-display item unanswered with an undetectable correct answer. -/
def dUndet : Detail := ⟨2, "qu", none, none, "a", "b", "c"⟩

/-! ### Helper lemmas about the grading loop -/

theorem gradeOne_score (answers : Int → Option Letter) (marks : Int → Bool)
    (st : GradeState) (row : Record) :
    (gradeOne answers marks st row).score =
      st.score + (if isCorrectAns answers row then 1 else 0) := by
  unfold gradeOne
  cases h1 : isCorrectAns answers row <;> cases h2 : marks row.id <;> simp [h1, h2]

theorem foldl_gradeOne_score (answers : Int → Option Letter) (marks : Int → Bool)
    (batch : List Record) (st : GradeState) :
    (batch.foldl (gradeOne answers marks) st).score =
      st.score + batch.countP (fun r => isCorrectAns answers r) := by
  induction batch generalizing st with
  | nil => simp
  | cons r rest ih =>
      rw [List.foldl_cons, ih, gradeOne_score, List.countP_cons]
      cases h : isCorrectAns answers r <;>
        simp [h, Nat.add_comm, Nat.add_assoc, Nat.add_left_comm]

theorem gradeOne_wrong_ne (answers : Int → Option Letter) (marks : Int → Bool)
    (st : GradeState) (row : Record) (j : Int) (hne : j ≠ row.id) :
    (j ∈ (gradeOne answers marks st row).wrong ↔ j ∈ st.wrong) := by
  unfold gradeOne
  cases h1 : isCorrectAns answers row <;> cases h2 : marks row.id <;>
    simp [h1, h2, Finset.mem_insert, Finset.mem_erase, hne]

theorem gradeOne_wrong_self (answers : Int → Option Letter) (marks : Int → Bool)
    (st : GradeState) (row : Record) :
    (row.id ∈ (gradeOne answers marks st row).wrong ↔
      (isCorrectAns answers row = false ∨ marks row.id = true)) := by
  unfold gradeOne
  cases h1 : isCorrectAns answers row <;> cases h2 : marks row.id <;>
    simp [h1, h2, Finset.mem_insert, Finset.mem_erase]

theorem foldl_gradeOne_wrong_frame (answers : Int → Option Letter) (marks : Int → Bool)
    (batch : List Record) (st : GradeState) (j : Int)
    (hj : ∀ q ∈ batch, q.id ≠ j) :
    (j ∈ (batch.foldl (gradeOne answers marks) st).wrong ↔ j ∈ st.wrong) := by
  induction batch generalizing st with
  | nil => simp
  | cons r rest ih =>
      rw [List.foldl_cons, ih _ (fun q hq => hj q (List.mem_cons_of_mem _ hq))]
      exact gradeOne_wrong_ne _ _ _ _ j (Ne.symm (hj r (List.mem_cons_self r rest)))

theorem foldl_gradeOne_wrong_mem (answers : Int → Option Letter) (marks : Int → Bool)
    (batch : List Record) (st : GradeState) (q : Record)
    (hq : q ∈ batch) (hnd : (batch.map Record.id).Nodup) :
    (q.id ∈ (batch.foldl (gradeOne answers marks) st).wrong ↔
      (isCorrectAns answers q = false ∨ marks q.id = true)) := by
  induction batch generalizing st with
  | nil => cases hq
  | cons r rest ih =>
      rw [List.map_cons, List.nodup_cons] at hnd
      rw [List.foldl_cons]
      rcases List.mem_cons.mp hq with rfl | hmem
      · have hids : ∀ p ∈ rest, p.id ≠ q.id := by
          intro p hp he
          exact hnd.1 (he ▸ List.mem_map_of_mem Record.id hp)
        rw [foldl_gradeOne_wrong_frame _ _ _ _ _ hids]
        exact gradeOne_wrong_self _ _ _ _
      · exact ih _ hmem hnd.2

theorem gradeOne_details (answers : Int → Option Letter) (marks : Int → Bool)
    (st : GradeState) (row : Record) :
    (gradeOne answers marks st row).details = st.details ++ [detailOf answers row] := by
  unfold gradeOne
  cases h1 : isCorrectAns answers row <;> cases h2 : marks row.id <;> simp [h1, h2]

theorem foldl_gradeOne_details (answers : Int → Option Letter) (marks : Int → Bool)
    (batch : List Record) (st : GradeState) :
    (batch.foldl (gradeOne answers marks) st).details =
      st.details ++ batch.map (detailOf answers) := by
  induction batch generalizing st with
  | nil => simp
  | cons r rest ih => rw [List.foldl_cons, ih, gradeOne_details]; simp

theorem seen_foldl_mem (l : List Detail) (s0 : Finset Int) (j : Int) :
    (j ∈ l.foldl
        (fun acc d => if d.correct_letter.isSome then insert d.qid acc else acc) s0 ↔
      j ∈ s0 ∨ ∃ d ∈ l, d.qid = j ∧ d.correct_letter.isSome) := by
  induction l generalizing s0 with
  | nil => simp
  | cons d rest ih =>
      rw [List.foldl_cons]
      cases h : d.correct_letter.isSome with
      | false =>
          rw [if_neg (by simp), ih]
          simp only [List.mem_cons]
          constructor
          · rintro (hs | ⟨d', hd', hj, hsome⟩)
            · exact Or.inl hs
            · exact Or.inr ⟨d', Or.inr hd', hj, hsome⟩
          · rintro (hs | ⟨d', (rfl | hd'), hj, hsome⟩)
            · exact Or.inl hs
            · rw [h] at hsome; cases hsome
            · exact Or.inr ⟨d', hd', hj, hsome⟩
      | true =>
          rw [if_pos rfl, ih]
          simp only [Finset.mem_insert, List.mem_cons]
          constructor
          · rintro ((rfl | hs) | ⟨d', hd', hj, hsome⟩)
            · exact Or.inr ⟨d, Or.inl rfl, rfl, h⟩
            · exact Or.inl hs
            · exact Or.inr ⟨d', Or.inr hd', hj, hsome⟩
          · rintro (hs | ⟨d', (rfl | hd'), hj, hsome⟩)
            · exact Or.inl (Or.inr hs)
            · exact Or.inl (Or.inl hj.symm)
            · exact Or.inr ⟨d', hd', hj, hsome⟩

/-! ### Helper lemmas about the review-display sort -/

theorem orderedInsert_rank_le (a : Detail) (l : List Detail)
    (ha : ∀ y ∈ l, sortRank a ≤ sortRank y) :
    List.orderedInsert (fun d1 d2 => sortRank d1 ≤ sortRank d2) a l = a :: l := by
  cases l with
  | nil => rfl
  | cons b t =>
      simp only [List.orderedInsert]
      rw [if_pos (ha b (List.mem_cons_self b t))]

theorem orderedInsert_rank_split (a : Detail) (ha : sortRank a = 1) (A B : List Detail)
    (hA : ∀ y ∈ A, sortRank y = 0) (hB : ∀ y ∈ B, sortRank y = 1) :
    List.orderedInsert (fun d1 d2 => sortRank d1 ≤ sortRank d2) a (A ++ B) =
      A ++ a :: B := by
  induction A with
  | nil =>
      simp only [List.nil_append]
      cases B with
      | nil => rfl
      | cons b t =>
          simp only [List.orderedInsert]
          rw [if_pos (by rw [ha, hB b (List.mem_cons_self b t)])]
  | cons x t ihA =>
      have hx : sortRank x = 0 := hA x (List.mem_cons_self x t)
      have hnot : ¬ (sortRank a ≤ sortRank x) := by rw [ha, hx]; omega
      simp only [List.cons_append, List.orderedInsert, List.append_eq]
      rw [if_neg hnot, ihA (fun y hy => hA y (List.mem_cons_of_mem _ hy))]

theorem details_sorted_eq_partition (l : List Detail) :
    details_sorted l =
      l.filter (fun d => !sortKey d) ++ l.filter (fun d => sortKey d) := by
  induction l with
  | nil => rfl
  | cons a t ih =>
      have step : details_sorted (a :: t) =
          List.orderedInsert (fun d1 d2 => sortRank d1 ≤ sortRank d2) a
            (details_sorted t) := rfl
      rw [step, ih]
      cases hk : sortKey a with
      | false =>
          have ha0 : sortRank a = 0 := by simp [sortRank, hk]
          rw [orderedInsert_rank_le a _ (fun y hy => by rw [ha0]; omega)]
          simp [List.filter_cons, hk]
      | true =>
          have ha1 : sortRank a = 1 := by simp [sortRank, hk]
          rw [orderedInsert_rank_split a ha1 _ _
            (fun y hy => by
              have hy2 := (List.mem_filter.mp hy).2
              simp only [Bool.not_eq_true'] at hy2
              simp [sortRank, hy2])
            (fun y hy => by
              have hy2 := (List.mem_filter.mp hy).2
              simp [sortRank, hy2])]
          simp [List.filter_cons, hk]

/-! ### Helper lemmas about cursor navigation -/

theorem navStep_order (st : CursorState) (act : NavAction) :
    (navStep st act).order = st.order := by
  cases act <;> (simp only [navStep]; split <;> rfl)

theorem navRun_order (st : CursorState) (acts : List NavAction) :
    (navRun st acts).order = st.order := by
  induction acts generalizing st with
  | nil => rfl
  | cons a as ih =>
      show (navRun (navStep st a) as).order = st.order
      rw [ih, navStep_order]

theorem navStep_cursor_bounds (st : CursorState) (act : NavAction)
    (h0 : 0 ≤ st.cursor) (h1 : st.cursor ≤ (st.order.length : Int)) :
    0 ≤ (navStep st act).cursor ∧
      (navStep st act).cursor ≤ ((navStep st act).order.length : Int) := by
  rw [navStep_order]
  cases act with
  | nextBatch =>
      simp only [navStep]
      split
      · constructor
        · show (0 : Int) ≤ min (st.cursor + (BATCH_SIZE : Int)) (st.order.length : Int)
          simp only [BATCH_SIZE]
          omega
        · show min (st.cursor + (BATCH_SIZE : Int)) (st.order.length : Int) ≤
            (st.order.length : Int)
          simp only [BATCH_SIZE]
          omega
      · exact ⟨h0, h1⟩
  | prevBatch =>
      simp only [navStep]
      split
      · constructor
        · show (0 : Int) ≤ max (st.cursor - (BATCH_SIZE : Int)) 0
          simp only [BATCH_SIZE]
          omega
        · show max (st.cursor - (BATCH_SIZE : Int)) 0 ≤ (st.order.length : Int)
          simp only [BATCH_SIZE]
          omega
      · exact ⟨h0, h1⟩

theorem navRun_cursor_bounds (st : CursorState) (acts : List NavAction)
    (h0 : 0 ≤ st.cursor) (h1 : st.cursor ≤ (st.order.length : Int)) :
    0 ≤ (navRun st acts).cursor ∧
      (navRun st acts).cursor ≤ ((navRun st acts).order.length : Int) := by
  induction acts generalizing st with
  | nil => exact ⟨h0, h1⟩
  | cons a as ih =>
      have hb := navStep_cursor_bounds st a h0 h1
      exact ih (navStep st a) hb.1 hb.2

/-! ### Helper lemmas about extraction -/

theorem rowToRecord_id (r : Row) (rec : Record) (h : rowToRecord r = some rec) :
    rowId r = some rec.id := by
  unfold rowToRecord at h
  cases hp : rowId r with
  | none => rw [hp] at h; cases h
  | some rid =>
      rw [hp] at h
      simp only at h
      split at h
      · cases h
      · cases h; rfl

theorem output_id_mem (l : List Row) (x : Int)
    (hx : x ∈ (l.filterMap rowToRecord).map Record.id) : x ∈ l.filterMap rowId := by
  obtain ⟨rec, hrec, rfl⟩ := List.mem_map.mp hx
  obtain ⟨r, hr, hconv⟩ := List.mem_filterMap.mp hrec
  exact List.mem_filterMap.mpr ⟨r, hr, rowToRecord_id r rec hconv⟩

theorem output_ids_nodup (l : List Row) (h : (l.filterMap rowId).Nodup) :
    ((l.filterMap rowToRecord).map Record.id).Nodup := by
  induction l with
  | nil => simp
  | cons r t ih =>
      cases hc : rowToRecord r with
      | none =>
          rw [List.filterMap_cons_none hc]
          apply ih
          cases hi : rowId r with
          | none => rw [List.filterMap_cons_none hi] at h; exact h
          | some v =>
              rw [List.filterMap_cons_some hi] at h
              exact (List.nodup_cons.mp h).2
      | some rec =>
          have hid := rowToRecord_id r rec hc
          rw [List.filterMap_cons_some hc, List.map_cons, List.nodup_cons]
          rw [List.filterMap_cons_some hid] at h
          obtain ⟨hnot, ht⟩ := List.nodup_cons.mp h
          exact ⟨fun hmem => hnot (output_id_mem t rec.id hmem), ih ht⟩

/-! ### Claim theorems -/

/-- C1: on the spec's concrete instance — batch `[{id 1, correct A}, {id 2,
correct B}]`, submissions `{1: A, 2: C}`, nothing flagged — grading yields
score 1, the wrong set gains 2, loses 1 (so 1 is absent afterwards whether or
not it was present before), and the seen set gains exactly `{1, 2}`, from any
initial persisted sets. -/
theorem grading_matches_spec_instance (wrong0 seen0 : Finset Int) :
    (grade_and_show_results [recA, recB] answersAC marksNone wrong0 seen0).score = 1 ∧
    (2 : Int) ∈ (grade_and_show_results [recA, recB] answersAC marksNone wrong0 seen0).wrong ∧
    (1 : Int) ∉ (grade_and_show_results [recA, recB] answersAC marksNone wrong0 seen0).wrong ∧
    (grade_and_show_results [recA, recB] answersAC marksNone wrong0 seen0).seen =
      seen0 ∪ {1, 2} := by
  have hA : isCorrectAns answersAC recA = true := by decide
  have hB : isCorrectAns answersAC recB = false := by decide
  have hnd : (([recA, recB]).map Record.id).Nodup := by decide
  refine ⟨?_, ?_, ?_, ?_⟩
  · show (([recA, recB]).foldl (gradeOne answersAC marksNone) ⟨0, [], wrong0⟩).score = 1
    rw [foldl_gradeOne_score]
    simp [List.countP_cons, hA, hB]
  · show (2 : Int) ∈
      (([recA, recB]).foldl (gradeOne answersAC marksNone) ⟨0, [], wrong0⟩).wrong
    exact (foldl_gradeOne_wrong_mem answersAC marksNone [recA, recB] _ recB
      (by decide) hnd).mpr (Or.inl hB)
  · show (1 : Int) ∉
      (([recA, recB]).foldl (gradeOne answersAC marksNone) ⟨0, [], wrong0⟩).wrong
    intro hmem
    have hco := (foldl_gradeOne_wrong_mem answersAC marksNone [recA, recB] _ recA
      (by decide) hnd).mp hmem
    simp [hA, marksNone] at hco
  · show (([recA, recB]).foldl (gradeOne answersAC marksNone) ⟨0, [], wrong0⟩).details.foldl
        (fun acc d => if d.correct_letter.isSome then insert d.qid acc else acc) seen0 =
      seen0 ∪ {1, 2}
    rw [foldl_gradeOne_details]
    show insert (2 : Int) (insert (1 : Int) seen0) = seen0 ∪ {1, 2}
    ext x
    simp [Finset.mem_insert, Finset.mem_union]
    tauto

/-- C4: a question answered with its correct letter but flagged for review is
still counted as correct in the score (the score is the count of correct
submissions and this question's submission is correct), yet its id is added
to the persisted wrong set. -/
theorem flag_forces_wrongset (batch : List Record) (answers : Int → Option Letter)
    (marks : Int → Bool) (wrong0 seen0 : Finset Int) (q : Record)
    (hq : q ∈ batch) (hnd : (batch.map Record.id).Nodup)
    (hans : answers q.id = correct_letter_of q.correct_idx)
    (hsome : (answers q.id).isSome = true) (hmark : marks q.id = true) :
    isCorrectAns answers q = true ∧
    (grade_and_show_results batch answers marks wrong0 seen0).score =
      batch.countP (fun r => isCorrectAns answers r) ∧
    q.id ∈ (grade_and_show_results batch answers marks wrong0 seen0).wrong := by
  have hcorrect : isCorrectAns answers q = true := by
    rw [hans] at hsome
    simp [isCorrectAns, hans, hsome]
  refine ⟨hcorrect, ?_, ?_⟩
  · show (batch.foldl (gradeOne answers marks) ⟨0, [], wrong0⟩).score = _
    simp [foldl_gradeOne_score]
  · show q.id ∈ (batch.foldl (gradeOne answers marks) ⟨0, [], wrong0⟩).wrong
    exact (foldl_gradeOne_wrong_mem answers marks batch _ q hq hnd).mpr (Or.inr hmark)

/-- Witness for C4 at a concrete input: question 3 (correct A) answered A and
flagged; it is counted correct yet lands in the wrong set. -/
theorem flag_forces_wrongset_witness :
    isCorrectAns answersFlag recFlag = true ∧
    (grade_and_show_results [recFlag] answersFlag marksAll ∅ ∅).score =
      [recFlag].countP (fun r => isCorrectAns answersFlag r) ∧
    (3 : Int) ∈ (grade_and_show_results [recFlag] answersFlag marksAll ∅ ∅).wrong :=
  flag_forces_wrongset [recFlag] answersFlag marksAll ∅ ∅ recFlag (by decide)
    (by decide) (by decide) (by decide) (by decide)

/-- C5: a question whose correct option is undetectable is never counted
correct (its submission never satisfies the correctness test that the score
counts), and grading never removes its id from the wrong set. -/
theorem unknown_correct_excluded (batch : List Record) (answers : Int → Option Letter)
    (marks : Int → Bool) (wrong0 seen0 : Finset Int) (q : Record)
    (hq : q ∈ batch) (hnd : (batch.map Record.id).Nodup)
    (hunk : correct_letter_of q.correct_idx = none) :
    isCorrectAns answers q = false ∧
    (grade_and_show_results batch answers marks wrong0 seen0).score =
      batch.countP (fun r => isCorrectAns answers r) ∧
    (q.id ∈ wrong0 → q.id ∈ (grade_and_show_results batch answers marks wrong0 seen0).wrong) := by
  have hfalse : isCorrectAns answers q = false := by
    simp only [isCorrectAns, hunk]
    cases answers q.id <;> simp
  refine ⟨hfalse, ?_, fun _ => ?_⟩
  · show (batch.foldl (gradeOne answers marks) ⟨0, [], wrong0⟩).score = _
    simp [foldl_gradeOne_score]
  · show q.id ∈ (batch.foldl (gradeOne answers marks) ⟨0, [], wrong0⟩).wrong
    exact (foldl_gradeOne_wrong_mem answers marks batch _ q hq hnd).mpr (Or.inl hfalse)

/-- Witness for C5 at a concrete input: question 5 with undetectable correct
option, unanswered, initially in the wrong set; it stays there and is not
counted correct. -/
theorem unknown_correct_excluded_witness :
    isCorrectAns answersAC recUnknown = false ∧
    (grade_and_show_results [recUnknown] answersAC marksNone {5} ∅).score =
      [recUnknown].countP (fun r => isCorrectAns answersAC r) ∧
    ((5 : Int) ∈ ({5} : Finset Int) →
      (5 : Int) ∈ (grade_and_show_results [recUnknown] answersAC marksNone {5} ∅).wrong) :=
  unknown_correct_excluded [recUnknown] answersAC marksNone {5} ∅ recUnknown
    (by decide) (by decide) (by decide)

/-- C10: grading changes wrong-set and seen-set membership only for ids of
the current batch; any id outside the batch keeps its membership in both
persisted sets. -/
theorem grading_frame_effect (batch : List Record) (answers : Int → Option Letter)
    (marks : Int → Bool) (wrong0 seen0 : Finset Int) (j : Int)
    (hj : ∀ q ∈ batch, q.id ≠ j) :
    ((j ∈ (grade_and_show_results batch answers marks wrong0 seen0).wrong ↔ j ∈ wrong0) ∧
     (j ∈ (grade_and_show_results batch answers marks wrong0 seen0).seen ↔ j ∈ seen0)) := by
  constructor
  · show j ∈ (batch.foldl (gradeOne answers marks) ⟨0, [], wrong0⟩).wrong ↔ _
    exact foldl_gradeOne_wrong_frame answers marks batch _ j hj
  · show j ∈ ((batch.foldl (gradeOne answers marks) ⟨0, [], wrong0⟩).details.foldl
        (fun acc d => if d.correct_letter.isSome then insert d.qid acc else acc) seen0) ↔ _
    rw [foldl_gradeOne_details, seen_foldl_mem]
    constructor
    · rintro (hs | ⟨d, hd, hqid, _⟩)
      · exact hs
      · have hd' : d ∈ batch.map (detailOf answers) := by simpa using hd
        obtain ⟨p, hp, rfl⟩ := List.mem_map.mp hd'
        exact absurd hqid (hj p hp)
    · intro hs
      exact Or.inl hs

/-- Witness for C10 at a concrete input: grading the one-question batch for
question 1 leaves id 99's membership in both persisted sets unchanged. -/
theorem grading_frame_effect_witness :
    (((99 : Int) ∈ (grade_and_show_results [recA] answersAC marksNone {99} ∅).wrong ↔
        (99 : Int) ∈ ({99} : Finset Int)) ∧
     ((99 : Int) ∈ (grade_and_show_results [recA] answersAC marksNone {99} ∅).seen ↔
        (99 : Int) ∈ (∅ : Finset Int))) :=
  grading_frame_effect [recA] answersAC marksNone {99} ∅ 99 (by decide)

/-- Witness for C1 at concrete initial sets: with id 1 initially in the wrong
set, grading scores 1 and removes 1. -/
theorem grading_instance_witness :
    (grade_and_show_results [recA, recB] answersAC marksNone {1} ∅).score = 1 ∧
    (1 : Int) ∉ (grade_and_show_results [recA, recB] answersAC marksNone {1} ∅).wrong :=
  ⟨(grading_matches_spec_instance {1} ∅).1, (grading_matches_spec_instance {1} ∅).2.2.1⟩

/-- A cell whose foreground RGB string matches the whitelist scan is yellow,
whatever its value and palette index. -/
theorem cell_is_yellow_of_rgb (v : Option String) (rv : String) (ix : Option Int)
    (hrv : ¬ (rv = "")) (h : rgbMatches rv = true) :
    cell_is_yellow ⟨v, some ⟨some ⟨some rv, ix⟩⟩⟩ = true := by
  simp [cell_is_yellow, hrv, h]

/-- C2 (amended): every whitelisted RGB code is accepted (as is any RGB string
containing one as a substring, which the original claim's exact-match reading
excludes), every legacy indexed value 5/6/13/27/44 is accepted, and every
accepted cell has a fill whose RGB contains a whitelisted code or whose index
is whitelisted. -/
theorem cell_is_yellow_whitelist_and_substrings :
    (∀ code ∈ YELLOW_PATTERNS, ∀ ix : Option Int,
      cell_is_yellow ⟨none, some ⟨some ⟨some code, ix⟩⟩⟩ = true) ∧
    (∀ i ∈ INDEXED_YELLOW,
      cell_is_yellow ⟨none, some ⟨some ⟨none, some i⟩⟩⟩ = true) ∧
    (∀ c : Cell, cell_is_yellow c = true →
      ∃ f fg, c.fill = some f ∧ f.fgColor = some fg ∧
        ((∃ rv, fg.rgb = some rv ∧ rgbMatches rv = true) ∨
         (∃ i, fg.indexed = some i ∧ i ∈ INDEXED_YELLOW))) := by
  refine ⟨?_, ?_, ?_⟩
  · intro code hcode ix
    fin_cases hcode <;> exact cell_is_yellow_of_rgb none _ ix (by decide) (by decide)
  · intro i hi
    fin_cases hi <;> decide
  · intro c h
    obtain ⟨v, fl⟩ := c
    cases fl with
    | none => simp [cell_is_yellow] at h
    | some f =>
        obtain ⟨fgo⟩ := f
        cases fgo with
        | none => simp [cell_is_yellow] at h
        | some fg =>
            obtain ⟨rgbv, ixv⟩ := fg
            refine ⟨⟨some ⟨rgbv, ixv⟩⟩, ⟨rgbv, ixv⟩, rfl, rfl, ?_⟩
            cases rgbv with
            | none =>
                right
                simp only [cell_is_yellow] at h
                cases ixv with
                | none => simp at h
                | some i => exact ⟨i, rfl, by simpa using h⟩
            | some rv =>
                simp only [cell_is_yellow] at h
                cases hm : rgbMatches rv with
                | true => exact Or.inl ⟨rv, rfl, hm⟩
                | false =>
                    right
                    have hinner : (if rv = "" then false else rgbMatches rv) = false := by
                      rw [hm, ite_self]
                    rw [hinner] at h
                    rw [if_neg Bool.false_ne_true] at h
                    cases ixv with
                    | none => exact absurd h (by simp)
                    | some i => exact ⟨i, rfl, by simpa using h⟩

/-- C2 counterexample: the fill colour `AAFFEB9C` is outside the whitelist
(no exact RGB match, no palette index at all), yet it is accepted, because
the scan tests substring containment rather than exact equality. -/
theorem cell_is_yellow_substring_counterexample :
    cell_is_yellow ⟨none, some ⟨some ⟨some ("AAFFEB9C"), none⟩⟩⟩ = true ∧
    ("AAFFEB9C") ∉ YELLOW_PATTERNS := by
  decide

/-- Witness for C2 at concrete inputs: the exact code FFFF00 and the legacy
index 6 are both accepted. -/
theorem cell_is_yellow_whitelist_witness :
    cell_is_yellow ⟨none, some ⟨some ⟨some ("FFFF00"), none⟩⟩⟩ = true ∧
    cell_is_yellow ⟨none, some ⟨some ⟨none, some 6⟩⟩⟩ = true :=
  ⟨cell_is_yellow_whitelist_and_substrings.1 ("FFFF00") (by decide) none,
   cell_is_yellow_whitelist_and_substrings.2.1 6 (by decide)⟩

/-- C3 (amended): extraction never emits a record with empty cleaned question
text; and it deduplicates nothing, so emitted identifiers are pairwise
distinct exactly when the data rows' parsed identifiers are — distinctness of
source identifiers is inherited, not enforced. -/
theorem extraction_nonempty_questions_and_distinct_ids (rows : List Row) :
    (∀ rec ∈ load_questions_from_excel rows, rec.question ≠ "") ∧
    (((dataRows rows).filterMap rowId).Nodup →
      ((load_questions_from_excel rows).map Record.id).Nodup) := by
  constructor
  · intro rec hrec
    have h2 := (List.mem_filter.mp hrec).2
    simpa using h2
  · intro h
    have h2 := output_ids_nodup (dataRows rows) h
    have hsub : List.Sublist ((load_questions_from_excel rows).map Record.id)
        (((dataRows rows).filterMap rowToRecord).map Record.id) :=
      List.Sublist.map Record.id (List.filter_sublist _)
    exact h2.sublist hsub

/-- C3 counterexample: a sheet with two data rows that both carry identifier
1 makes extraction emit two records with the same identifier. -/
theorem extraction_duplicate_ids_counterexample :
    (load_questions_from_excel [rowDup, rowDup]).map Record.id = [1, 1] ∧
    ¬ ((load_questions_from_excel [rowDup, rowDup]).map Record.id).Nodup := by
  decide

/-- Witness for C3 at a concrete input: a single well-formed row yields
distinct ids and a nonempty question. -/
theorem extraction_witness :
    ((load_questions_from_excel [rowDup]).map Record.id).Nodup ∧
    (∀ rec ∈ load_questions_from_excel [rowDup], rec.question ≠ "") :=
  ⟨(extraction_nonempty_questions_and_distinct_ids [rowDup]).2 (by decide),
   (extraction_nonempty_questions_and_distinct_ids [rowDup]).1⟩

/-- C6: starting from the empty persisted state fixes the order as all ids
sorted ascending with cursor 0; a nonempty persisted state is returned
unchanged (the order is never regenerated); navigation never changes the
order; and from any in-range cursor, any sequence of next/previous actions
keeps the cursor within `[0, length of order]`. -/
theorem parcours_order_fixed_cursor_bounded (ids : List Int) (prog : CursorState)
    (acts : List NavAction) :
    ((start_quiz_parcours ids ⟨[], 0⟩).1.order =
        List.insertionSort (fun a b => a ≤ b) ids ∧
     ((start_quiz_parcours ids ⟨[], 0⟩).1.order).Sorted (· ≤ ·) ∧
     ((start_quiz_parcours ids ⟨[], 0⟩).1.order).Perm ids ∧
     (start_quiz_parcours ids ⟨[], 0⟩).1.cursor = 0) ∧
    (prog.order ≠ [] → (start_quiz_parcours ids prog).1 = prog) ∧
    ((navRun prog acts).order = prog.order) ∧
    (0 ≤ prog.cursor → prog.cursor ≤ (prog.order.length : Int) →
      0 ≤ (navRun prog acts).cursor ∧
        (navRun prog acts).cursor ≤ ((navRun prog acts).order.length : Int)) := by
  refine ⟨⟨rfl, ?_, ?_, rfl⟩, ?_, navRun_order prog acts,
    fun h0 h1 => navRun_cursor_bounds prog acts h0 h1⟩
  · show (List.insertionSort (fun a b => a ≤ b) ids).Sorted (· ≤ ·)
    exact List.sorted_insertionSort _ ids
  · show (List.insertionSort (fun a b => a ≤ b) ids).Perm ids
    exact List.perm_insertionSort _ ids
  · intro h
    have hne : ¬ (prog.order.isEmpty = true) := by
      simpa [List.isEmpty_iff] using h
    simp only [start_quiz_parcours]
    rw [if_neg hne]

/-- Witness for C6 at concrete inputs: a nonempty persisted state survives a
restart unchanged, and a next-then-previous run keeps the cursor in range. -/
theorem parcours_witness :
    (start_quiz_parcours [2, 1] ⟨[5, 3], 1⟩).1 = ⟨[5, 3], 1⟩ ∧
    (0 ≤ (navRun ⟨[5, 3], 1⟩ [NavAction.nextBatch, NavAction.prevBatch]).cursor ∧
     (navRun ⟨[5, 3], 1⟩ [NavAction.nextBatch, NavAction.prevBatch]).cursor ≤
       ((navRun ⟨[5, 3], 1⟩ [NavAction.nextBatch, NavAction.prevBatch]).order.length : Int)) :=
  ⟨(parcours_order_fixed_cursor_bounded [2, 1] ⟨[5, 3], 1⟩ []).2.1 (by decide),
   (parcours_order_fixed_cursor_bounded [2, 1] ⟨[5, 3], 1⟩
      [NavAction.nextBatch, NavAction.prevBatch]).2.2.2 (by decide) (by decide)⟩

/-- C7: with an empty seen set, a pool of N distinct ids and N ≥ K, exam
selection returns exactly K ids, pairwise distinct, all from the pool —
for any shuffle that permutes its input. -/
theorem pick_quiz_ids_exam_selection (shuffle : List Int → List Int)
    (hs : ∀ l, (shuffle l).Perm l) (all_ids : List Int) (k : Nat)
    (hnd : all_ids.Nodup) (hk : k ≤ all_ids.length) :
    (pick_quiz_ids shuffle all_ids ∅ k).length = k ∧
    (pick_quiz_ids shuffle all_ids ∅ k).Nodup ∧
    (∀ i ∈ pick_quiz_ids shuffle all_ids ∅ k, i ∈ all_ids) := by
  have hunseen : all_ids.filter (fun i => decide (i ∉ (∅ : Finset Int))) = all_ids := by
    apply List.filter_eq_self.mpr
    intro a _
    simp
  have hperm := hs all_ids
  have hlen : ((shuffle all_ids).take k).length = k := by
    rw [List.length_take, hperm.length_eq]
    omega
  have hpick : pick_quiz_ids shuffle all_ids ∅ k = (shuffle all_ids).take k := by
    simp only [pick_quiz_ids, hunseen]
    rw [if_neg (by rw [hlen]; omega)]
  rw [hpick]
  have hnd2 : (shuffle all_ids).Nodup := (hperm.nodup_iff).mpr hnd
  refine ⟨hlen, hnd2.sublist (List.take_sublist k _), ?_⟩
  · intro i hi
    exact hperm.mem_iff.mp (List.mem_of_mem_take hi)

/-- Witness for C7 at a concrete input: the identity shuffle on pool
`[1, 2, 3]` with K = 2. -/
theorem pick_quiz_ids_witness :
    (pick_quiz_ids (fun l => l) [1, 2, 3] ∅ 2).length = 2 ∧
    (pick_quiz_ids (fun l => l) [1, 2, 3] ∅ 2).Nodup ∧
    (∀ i ∈ pick_quiz_ids (fun l => l) [1, 2, 3] ∅ 2, i ∈ ([1, 2, 3] : List Int)) :=
  pick_quiz_ids_exam_selection (fun l => l) (fun l => List.Perm.refl l) [1, 2, 3] 2
    (by decide) (by decide)

/-- C8 (amended): the review display lists every item whose submitted letter
differs from its correct letter before every item whose submitted letter
equals it — an unanswered question with an undetectable correct answer counts
as equal (none equals none) and so sorts with the correct group — and the
original batch order is preserved inside each group. -/
theorem review_display_partition (details : List Detail) :
    details_sorted details =
      details.filter (fun d => !(d.user_letter == d.correct_letter)) ++
        details.filter (fun d => d.user_letter == d.correct_letter) ∧
    (∀ d ∈ details.filter (fun d => !(d.user_letter == d.correct_letter)),
      d.user_letter ≠ d.correct_letter) ∧
    (∀ d ∈ details.filter (fun d => d.user_letter == d.correct_letter),
      d.user_letter = d.correct_letter) := by
  refine ⟨?_, ?_, ?_⟩
  · simpa [sortKey] using details_sorted_eq_partition details
  · intro d hd
    have h2 := (List.mem_filter.mp hd).2
    simpa using h2
  · intro d hd
    have h2 := (List.mem_filter.mp hd).2
    simpa using h2

/-- C8 counterexample: an unanswered item with an undetectable correct answer
(`none == none` holds) is displayed after a correctly answered item, not
before it as the claim requires for undetermined items. -/
theorem review_display_counterexample :
    details_sorted [dMatch, dUndet] = [dMatch, dUndet] ∧
    dUndet.correct_letter = none ∧
    dUndet.user_letter = none ∧
    dMatch.user_letter = some Letter.A ∧
    dMatch.correct_letter = some Letter.A := by
  decide

/-- Witness for C8 at a concrete input: the two-item display partitions as
stated, and the undetermined unanswered item belongs to the matching group. -/
theorem review_display_partition_witness :
    details_sorted [dMatch, dUndet] =
      ([dMatch, dUndet] : List Detail).filter
          (fun d => !(d.user_letter == d.correct_letter)) ++
        ([dMatch, dUndet] : List Detail).filter
          (fun d => d.user_letter == d.correct_letter) ∧
    dUndet.user_letter = dUndet.correct_letter :=
  ⟨(review_display_partition [dMatch, dUndet]).1,
   (review_display_partition [dMatch, dUndet]).2.2 dUndet (by decide)⟩

/-- C9 (amended): an absent or JSON-unparsable cursor-state file loads as the
default empty order and cursor 0 without error (so does an empty JSON
object); but content that parses to valid JSON of a non-object shape (such as
a JSON list) raises an attribute error in the caller instead of defaulting. -/
theorem load_cursor_state_defaults :
    load_cursor_state none = Except.ok ⟨JValue.arr [], 0⟩ ∧
    load_cursor_state (some (JValue.obj [])) = Except.ok ⟨JValue.arr [], 0⟩ ∧
    (∀ items : List JValue,
      load_cursor_state (some (JValue.arr items)) = Except.error ("AttributeError")) :=
  ⟨rfl, rfl, fun _ => rfl⟩

/-- C9 counterexample: a cursor-state file containing the valid JSON list
`[]` — malformed as a cursor state — makes the load raise instead of
yielding the default state. -/
theorem load_cursor_state_error_counterexample :
    load_cursor_state (some (JValue.arr [])) = Except.error ("AttributeError") := rfl

end AMF
